import Mathlib

/-
Shallow embedding of the session-log ingestion and terminal-command
construction pipeline of the claude-code Raycast extension.

Character-level string processing (escaping, filename matching, substring
search) is modelled on `List Char` (the `data` of a `String`); record
fields that the source only compares for equality or emptiness stay
`String`.  JavaScript `Date` values are modelled by `DateVal` (a valid
date carries its epoch-milliseconds as a `Nat`; `nan` is JS "Invalid
Date", whose comparisons are all false and which is not `=== 0`).
A JSONL line is either `malformed` (JSON.parse throws, or the line is
blank) or a parsed record with the optional fields the source reads;
absent string fields are modelled as `""` matching the source's
truthiness checks.
-/

/-! ## Character-list helpers -/

def strL (s : String) : List Char := s.data

/-- Substring test: `pat` occurs inside `s` (JS `String.prototype.includes`). -/
def containsSub (pat : List Char) (s : List Char) : Bool :=
  match s with
  | [] => pat.isEmpty
  | _ :: rest => pat.isPrefixOf s || containsSub pat rest

/-- `true` iff the string begins with the visible failure marker prefix. -/
def errPrefixed (s : String) : Bool :=
  (strL "❌ ").isPrefixOf (strL s)

/-! ## CommandEscaper (sessionSearch.tsx `ResumeSessionAction`, part_002 `ProjectItem`) -/

/-- First pass of `command.replace(/\\/g, "\\\\")`: double every backslash. -/
def escBackslashes (s : List Char) : List Char :=
  (s.map (fun c => if c = '\\' then ['\\', '\\'] else [c])).flatten

/-- Second pass of `.replace(/"/g, '\\"')`: backslash-escape every double quote. -/
def escQuotes (s : List Char) : List Char :=
  (s.map (fun c => if c = '"' then ['\\', '"'] else [c])).flatten

/-- The single escaping pass the source applies to the whole command before
embedding it in the AppleScript `do script "..."` literal:
`resumeCommand.replace(/\\/g, "\\\\").replace(/"/g, '\\"')`. -/
def appleScriptEscape (s : List Char) : List Char :=
  escQuotes (escBackslashes s)

/-- `resumeCommand` built by `ResumeSessionAction`:
the directory and session id are interpolated verbatim into
`cd "${session.directory}" && claude -r "${session.id}"`. -/
def buildResumeCommand (dir id : List Char) : List Char :=
  strL "cd \"" ++ dir ++ strL "\" && claude -r \"" ++ id ++ ['"']

/-- Modelled from the spec: conceptual unescape of the automation-scripting
(AppleScript) double-quoted string layer; each backslash escape sequence
`\x` stands for the character `x`. -/
def specAppleScriptUnescape : List Char → List Char
  | [] => []
  | '\\' :: c :: rest => c :: specAppleScriptUnescape rest
  | c :: rest => c :: specAppleScriptUnescape rest

/-- Modelled from the spec: conceptual unescape of the shell double-quoted
string layer.  Reads the body of a double-quoted shell string up to its
closing quote; inside double quotes a backslash escapes `$`, `"` and `\`
and is otherwise kept literally.  Returns `none` on an unterminated string. -/
def specShellDQRead : List Char → Option (List Char)
  | [] => none
  | '"' :: _ => some []
  | '\\' :: c :: rest =>
      if c = '$' ∨ c = '"' ∨ c = '\\' then
        (specShellDQRead rest).map (fun t => c :: t)
      else
        (specShellDQRead rest).map (fun t => '\\' :: c :: t)
  | c :: rest => (specShellDQRead rest).map (fun t => c :: t)

/-- Modelled from the spec: the working directory a shell recovers from the
generated command, i.e. the double-quoted argument of the leading `cd "`. -/
def shellCdArg (cmd : List Char) : Option (List Char) :=
  if cmd.take 4 = strL "cd \"" then specShellDQRead (cmd.drop 4) else none

/-! ## SessionRecordParser data model (part_000 `parseSessionFile`) -/

/-- The `timestamp` field of a parsed line: absent (or empty string, both
falsy), present but not a parseable date, or a valid date in epoch ms. -/
inductive TS where
  | missing : TS
  | invalid : TS
  | valid : Nat → TS
deriving DecidableEq

/-- A JS `Date` value: `nan` is Invalid Date. -/
inductive DateVal where
  | nan : DateVal
  | t : Nat → DateVal
deriving DecidableEq

/-- `new Date(entry.timestamp)`; an absent or unparseable timestamp gives
Invalid Date. -/
def dateOf : TS → DateVal
  | .missing => .nan
  | .invalid => .nan
  | .valid n => .t n

/-- Truthiness of the raw `entry.timestamp` string. -/
def tsTruthy : TS → Bool
  | .missing => false
  | _ => true

/-- JS `a > b` on `Date`s: false whenever either side is Invalid Date. -/
def dateGt : DateVal → DateVal → Bool
  | .t m, .t n => n < m
  | _, _ => false

/-- JS `d.getTime() > 0` (false for Invalid Date, since `NaN > 0` is false). -/
def dateGtZero : DateVal → Bool
  | .t n => 0 < n
  | .nan => false

/-- JS `d.getTime() === 0` (false for Invalid Date, since `NaN === 0` is false). -/
def dateEqZero : DateVal → Bool
  | .t n => n = 0
  | .nan => false

/-- The `message.content` field: absent/empty (falsy), a non-string JSON
value (truthy but fails `typeof content === "string"`), or a string. -/
inductive ContentV where
  | absent : ContentV
  | nonstring : ContentV
  | str : String → ContentV
deriving DecidableEq

def contentTruthy : ContentV → Bool
  | .absent => false
  | .nonstring => true
  | .str s => s ≠ ""

/-- One successfully JSON-parsed log line, with the fields the source reads.
Absent string fields are `""` (falsy in the source's checks). -/
structure SEntry where
  sessionId : String := ""
  cwd : String := ""
  timestamp : TS := .missing
  type : String := ""
  summary : String := ""
  content : ContentV := .absent
deriving DecidableEq

/-- A non-blank line of a log file: either JSON.parse throws (`malformed`,
skipped by the source's catch) or it yields a record. -/
inductive JLine where
  | malformed : JLine
  | ok : SEntry → JLine
deriving DecidableEq

/-- The two authentication-failure markers tested on summary text:
`summary.includes("Invalid API key") || summary.includes("Please run /login")`. -/
def hasAuthMarker (s : String) : Bool :=
  containsSub (strL "Invalid API key") (strL s) ||
  containsSub (strL "Please run /login") (strL s)

/-- `content.substring(0, 100) + (content.length > 100 ? "..." : "")`. -/
def jsSubstr100 (s : String) : String :=
  String.mk ((strL s).take 100) ++ (if 100 < (strL s).length then "..." else "")

/-- The mutable locals of the parse loop in `parseSessionFile`. -/
structure PState where
  sessionId : String
  directory : String
  description : String
  timestamp : DateVal
  lastActivity : DateVal
  isError : Bool
deriving DecidableEq

/-- Initial loop state: `sessionId = ""`, `directory = ""`,
`description = "Claude Code Session"`, `timestamp = new Date()` (the current
wall clock `now`), `lastActivity = new Date(0)`, `isErrorSession = false`. -/
def initPState (now : Nat) : PState :=
  { sessionId := "", directory := "", description := "Claude Code Session",
    timestamp := .t now, lastActivity := .t 0, isError := false }

/-- First block of the loop body: the first entry carrying a non-empty
`sessionId` seeds `sessionId`, `directory` (`entry.cwd || ""`) and
`timestamp` (`new Date(entry.timestamp)`). -/
def seedStep (st : PState) (e : SEntry) : PState :=
  if st.sessionId = "" ∧ e.sessionId ≠ "" then
    { st with sessionId := e.sessionId, directory := e.cwd,
              timestamp := dateOf e.timestamp }
  else st

/-- Second block: `if (entry.timestamp) { if (entryTime > lastActivity)
lastActivity = entryTime }` — a running maximum over valid timestamps. -/
def activityStep (st : PState) (e : SEntry) : PState :=
  if tsTruthy e.timestamp ∧ dateGt (dateOf e.timestamp) st.lastActivity then
    { st with lastActivity := dateOf e.timestamp }
  else st

/-- Third block: summary entries overwrite the description (and probe for
auth-failure markers); otherwise the first short content line replaces the
placeholder description. -/
def descStep (st : PState) (e : SEntry) : PState :=
  if e.type = "summary" ∧ e.summary ≠ "" then
    { st with description := e.summary,
              isError := st.isError || hasAuthMarker e.summary }
  else if contentTruthy e.content ∧ st.description = "Claude Code Session" then
    match e.content with
    | .str s =>
        if 0 < (strL s).length ∧ (strL s).length < 200 then
          { st with description := jsSubstr100 s }
        else st
    | _ => st
  else st

/-- One iteration of the JSONL parse loop on a successfully parsed entry. -/
def stepEntry (st : PState) (e : SEntry) : PState :=
  descStep (activityStep (seedStep st e) e) e

/-- One iteration on a raw line; malformed lines are skipped (`catch { continue }`). -/
def stepLine (st : PState) : JLine → PState
  | .malformed => st
  | .ok e => stepEntry st e

def foldLines (st : PState) (ls : List JLine) : PState :=
  ls.foldl stepLine st

def isIdChar (c : Char) : Bool :=
  ('a' ≤ c ∧ c ≤ 'f') ∨ ('0' ≤ c ∧ c ≤ '9') ∨ c = '-'

/-- `filePath.split("/").pop() || ""`: the segment after the last `/`. -/
def basenameL (l : List Char) : List Char :=
  l.foldl (fun acc c => if c = '/' then [] else acc ++ [c]) []

/-- `filename.match(/([a-f0-9-]{36})\.jsonl$/)`: succeeds iff the basename
ends in `.jsonl` immediately preceded by 36 characters drawn from
`[a-f0-9-]`; the capture is those 36 characters. -/
def extractIdFromFilename (filePath : String) : Option String :=
  let fn := basenameL (strL filePath)
  if (strL ".jsonl").isSuffixOf fn then
    let stem := fn.take (fn.length - 6)
    if 36 ≤ stem.length ∧ (stem.drop (stem.length - 36)).all isIdChar then
      some (String.mk (stem.drop (stem.length - 36)))
    else none
  else none

/-- The aggregated Session record. -/
structure Session where
  id : String
  description : String
  directory : String
  timestamp : DateVal
  lastActivity : DateVal
  filePath : String
deriving DecidableEq

/-- part_000 `parseSessionFile`.  `lines` are the non-blank lines of the
file in order (blank lines are removed by the source's
`.filter((line) => line.trim())` before parsing); the source then caps them
at 500 (`.slice(0, 500)`).  `now` is the wall clock at `new Date()`;
`mtime` is `stat(filePath).mtime` in epoch ms (`none` when `stat` throws,
in which case the source falls back to `new Date()`).  Returns `none`
exactly where the source returns `null`; it never throws. -/
def parseSessionFile (filePath : String) (lines : List JLine)
    (now : Nat) (mtime : Option Nat) : Option Session :=
  let ls := lines.take 500
  if ls.isEmpty then none else
  let st := foldLines (initPState now) ls
  let sid := if st.sessionId = "" then (extractIdFromFilename filePath).getD ""
             else st.sessionId
  if sid = "" then none else
  let dsc := if st.isError then "❌ " ++ st.description else st.description
  let dir := if st.isError ∧ st.directory = "" then "~" else st.directory
  let ts := if dateEqZero st.timestamp then DateVal.t (mtime.getD now)
            else st.timestamp
  some { id := sid, description := dsc,
         directory := if dir = "" then "~" else dir,
         timestamp := ts,
         lastActivity := if dateGtZero st.lastActivity then st.lastActivity else ts,
         filePath := filePath }

/-- Bool form of "this parsed line carries no usable session id". -/
def lineHasNoId : JLine → Bool
  | .malformed => true
  | .ok e => e.sessionId == ""

/-- Bool form of "this line is a summary entry whose text contains an
authentication-failure marker". -/
def isMarkerSummaryLine : JLine → Bool
  | .malformed => false
  | .ok e => e.type == "summary" && e.summary != "" && hasAuthMarker e.summary

/-! ## SessionCatalog (part_000 `loadSessions`) -/

structure SFileInfo where
  filePath : String
  modifiedTime : Nat
  size : Nat
deriving DecidableEq

/-- The stable descending sort `(a, b) => b.key - a.key` used by the source
(`allSessionFiles.sort(...)`, and the mtime sort in part_002). -/
def sortDescBy {α : Type} (key : α → Nat) (l : List α) : List α :=
  List.insertionSort (fun a b => key b ≤ key a) l

def timeoutMsg : String :=
  "Session loading timed out. Try again or reduce the number of Claude Code projects."

/-- The sequential parse loop of `loadSessions`.  `elapsed` is
`Date.now() - startTime` when the loop head is reached; the budget check
`if (Date.now() - startTime > TIMEOUT_MS) break` runs before each file and
each parse advances the clock by that file's parse cost.  A file whose
parse returns `null` or throws contributes nothing (`pr` returns `none`). -/
def parseLoopCatalog (budget : Nat) (pc : SFileInfo → Nat)
    (pr : SFileInfo → Option Session) : Nat → List SFileInfo → List Session
  | _, [] => []
  | elapsed, f :: rest =>
    if budget < elapsed then []
    else
      match pr f with
      | some s => s :: parseLoopCatalog budget pc pr (elapsed + pc f) rest
      | none => parseLoopCatalog budget pc pr (elapsed + pc f) rest

/-- The outcome `loadSessions` publishes to the UI: the session list set by
`setSessions` and the error string set by `setError` (if any). -/
structure LoadOutcome where
  sessions : List Session
  errMsg : Option String
deriving DecidableEq

/-- part_000 `loadSessions`, with wall-clock time made explicit:
`files` is what `getAllSessionFiles` returned, `scanCost` the time that
scan consumed, `pc f`/`pr f` the parse cost and parse result of file `f`,
`budget` the `TIMEOUT_MS` ceiling.  After the scan the source throws
`"Session loading timeout"` when over budget — the catch turns it into the
timeout error message with no sessions; otherwise it sorts by mtime
descending, takes the 15 most recent, and runs the budget-checked loop,
publishing the collected sessions with no error. -/
def loadSessionsModel (files : List SFileInfo) (scanCost : Nat)
    (pc : SFileInfo → Nat) (pr : SFileInfo → Option Session)
    (budget : Nat) : LoadOutcome :=
  if budget < scanCost then { sessions := [], errMsg := some timeoutMsg }
  else
    let recent := (sortDescBy (fun f => f.modifiedTime) files).take 15
    { sessions := parseLoopCatalog budget pc pr scanCost recent, errMsg := none }

/-- `TIMEOUT_MS` in the source. -/
def TIMEOUT_MS : Nat := 10000

def sumCosts (pc : SFileInfo → Nat) (l : List SFileInfo) : Nat :=
  (l.map pc).sum

/-! ## Catalog refresh concurrency guard (part_000 `isGlobalLoading`) -/

/-- The module-level guard (`isGlobalLoading`), the number of
`loadSessions` invocations currently running, and an observer counting
scan invocations. -/
structure RefreshState where
  inFlight : Bool
  running : Nat
  scanCount : Nat
deriving DecidableEq

/-- The refresh entry points of part_000.  `request` is the mount-effect
`load`, which runs `if (!isGlobalLoading) { isGlobalLoading = true; ... }`
atomically (no suspension point between test and set) before awaiting
`loadSessions`.  `retry` is the error-screen Retry action
(`onAction={loadSessions}`), which invokes `loadSessions` directly and
never reads or writes `isGlobalLoading`.  `finishGuarded` / `finishRetry`
are the corresponding `loadSessions` completions; only the guarded path
clears the flag afterwards. -/
inductive RefreshEv where
  | request : RefreshEv
  | retry : RefreshEv
  | finishGuarded : RefreshEv
  | finishRetry : RefreshEv
deriving DecidableEq

/-- One event on the single-threaded UI loop; starting a refresh performs
one file-system scan. -/
def refreshStep (s : RefreshState) : RefreshEv → RefreshState
  | .request =>
      if s.inFlight then s
      else { inFlight := true, running := s.running + 1,
             scanCount := s.scanCount + 1 }
  | .retry => { s with running := s.running + 1, scanCount := s.scanCount + 1 }
  | .finishGuarded => { s with inFlight := false, running := s.running - 1 }
  | .finishRetry => { s with running := s.running - 1 }

def refreshRun (s : RefreshState) (evs : List RefreshEv) : RefreshState :=
  evs.foldl refreshStep s

/-! ## LogFileScanner (part_000 `getAllSessionFiles`) -/

structure DirEnt where
  name : String
  isDir : Bool
deriving DecidableEq

structure StatInfo where
  size : Nat
  mtime : Nat
deriving DecidableEq

/-- The filesystem as seen through the three fallible primitives the
scanner calls; `.error` models the promise rejecting. -/
structure FSModel where
  readdirTypes : String → Except String (List DirEnt)
  readdirNames : String → Except String (List String)
  statFile : String → Except String StatInfo

def joinPath (a b : String) : String := a ++ "/" ++ b

def endsWithJsonl (s : String) : Bool := (strL ".jsonl").isSuffixOf (strL s)

/-- 50 MB size cap (`maxFileSize` in part_000). -/
def maxFileSize : Nat := 50 * 1024 * 1024

/-- Per-file body: `stat` failure is caught and the file skipped; oversized
files are skipped; otherwise the file is appended to `allFiles`. -/
def scanFileStep (fs : FSModel) (dirPath : String)
    (acc : List SFileInfo) (file : String) : List SFileInfo :=
  match fs.statFile (joinPath dirPath file) with
  | .error _ => acc
  | .ok st =>
    if maxFileSize < st.size then acc
    else acc ++ [{ filePath := joinPath dirPath file,
                   modifiedTime := st.mtime, size := st.size }]

/-- Per-directory body: non-directories are skipped; a failing `readdir` of
the subdirectory is caught and the directory skipped; otherwise every
`.jsonl` file is stat-ed in order. -/
def scanDirStep (fs : FSModel) (root : String)
    (acc : List SFileInfo) (d : DirEnt) : List SFileInfo :=
  if d.isDir then
    match fs.readdirNames (joinPath root d.name) with
    | .error _ => acc
    | .ok files =>
      (files.filter endsWithJsonl).foldl (scanFileStep fs (joinPath root d.name)) acc
  else acc

/-- part_000 `getAllSessionFiles`: a failing `readdir` of the root itself is
caught by the outermost catch and yields the (empty) accumulated list. -/
def getAllSessionFiles (fs : FSModel) (root : String) : List SFileInfo :=
  match fs.readdirTypes root with
  | .error _ => []
  | .ok dirs => dirs.foldl (scanDirStep fs root) []

/-- Closed-form description of the scan, following the spec's contract:
per-file outcome as a filterMap. -/
def specFileEntry (fs : FSModel) (dirPath : String) (file : String) : Option SFileInfo :=
  match fs.statFile (joinPath dirPath file) with
  | .error _ => none
  | .ok st =>
    if maxFileSize < st.size then none
    else some { filePath := joinPath dirPath file,
                modifiedTime := st.mtime, size := st.size }

def specDirFiles (fs : FSModel) (root : String) (d : DirEnt) : List SFileInfo :=
  if d.isDir then
    match fs.readdirNames (joinPath root d.name) with
    | .error _ => []
    | .ok files =>
      (files.filter endsWithJsonl).filterMap (specFileEntry fs (joinPath root d.name))
  else []

/-- Closed-form scan result: every listable directory contributes its
stat-able, small-enough `.jsonl` files; every failure skips exactly its own
portion. -/
def specScan (fs : FSModel) (root : String) : List SFileInfo :=
  match fs.readdirTypes root with
  | .error _ => []
  | .ok dirs => (dirs.map (specDirFiles fs root)).flatten

/-! ## ProjectDirectoryResolver (part_002 `parseProject` / `extractProjectPath`) -/

/-- A line as seen by `extractProjectPath`: blank or unparseable lines are
`malformed`; otherwise only the `cwd` field matters (absent = `""`). -/
inductive PLine where
  | malformed : PLine
  | entry : String → PLine
deriving DecidableEq

/-- part_002 `extractProjectPath`: the first line whose `cwd` is truthy and
not `"/"`; `none` when no line qualifies (or the file is unreadable). -/
def extractProjectPath : List PLine → Option String
  | [] => none
  | .malformed :: rest => extractProjectPath rest
  | .entry cwd :: rest =>
      if cwd ≠ "" ∧ cwd ≠ "/" then some cwd else extractProjectPath rest

structure JFile where
  name : String
  mtime : Nat
  lines : List PLine
deriving DecidableEq

structure ProjectInfo where
  name : String
  path : String
  lastActivity : Nat
  existsOnDisk : Bool
  encodedDirName : String
deriving DecidableEq

/-- Node `path.basename`: last non-empty path segment (trailing slashes
stripped). -/
def nodeBasename (s : String) : String :=
  String.mk (basenameL (((strL s).reverse.dropWhile (fun c => c = '/')).reverse))

/-- The `for (const { path, mtime } of fileStats)` loop of `parseProject`:
stop at the first file yielding a path. -/
def parseProjectLoop (existsOnDisk : String → Bool) (enc : String) :
    List JFile → Option ProjectInfo
  | [] => none
  | f :: rest =>
    match extractProjectPath f.lines with
    | some p => some { name := nodeBasename p, path := p, lastActivity := f.mtime,
                       existsOnDisk := existsOnDisk p, encodedDirName := enc }
    | none => parseProjectLoop existsOnDisk enc rest

/-- part_002 `parseProject`: filter to `.jsonl` files, bail out if none,
sort by mtime descending, then scan for the first usable path.
`existsOnDisk` models `existsSync` at resolution time. -/
def parseProject (existsOnDisk : String → Bool) (enc : String)
    (files : List JFile) : Option ProjectInfo :=
  let jsonl := files.filter (fun f => endsWithJsonl f.name)
  if jsonl.isEmpty then none
  else parseProjectLoop existsOnDisk enc (sortDescBy (fun f => f.mtime) jsonl)

/-! ## Component lemmas for the parse loop -/

theorem seedStep_lastActivity (st : PState) (e : SEntry) :
    (seedStep st e).lastActivity = st.lastActivity := by
  unfold seedStep; split <;> rfl

theorem seedStep_isError (st : PState) (e : SEntry) :
    (seedStep st e).isError = st.isError := by
  unfold seedStep; split <;> rfl

theorem activityStep_sessionId (st : PState) (e : SEntry) :
    (activityStep st e).sessionId = st.sessionId := by
  unfold activityStep; split <;> rfl

theorem activityStep_isError (st : PState) (e : SEntry) :
    (activityStep st e).isError = st.isError := by
  unfold activityStep; split <;> rfl

theorem activityStep_description (st : PState) (e : SEntry) :
    (activityStep st e).description = st.description := by
  unfold activityStep; split <;> rfl

theorem activityStep_directory (st : PState) (e : SEntry) :
    (activityStep st e).directory = st.directory := by
  unfold activityStep; split <;> rfl

theorem descStep_sessionId (st : PState) (e : SEntry) :
    (descStep st e).sessionId = st.sessionId := by
  unfold descStep
  split
  · rfl
  · split
    · cases e.content <;> simp <;> split <;> rfl
    · rfl

theorem descStep_lastActivity (st : PState) (e : SEntry) :
    (descStep st e).lastActivity = st.lastActivity := by
  unfold descStep
  split
  · rfl
  · split
    · cases e.content <;> simp <;> split <;> rfl
    · rfl

theorem descStep_isError_true (st : PState) (e : SEntry) (h : st.isError = true) :
    (descStep st e).isError = true := by
  unfold descStep
  split
  · simp [h]
  · split
    · cases e.content <;> simp [h] <;> split <;> simp [h]
    · exact h

theorem stepLine_isError_mono (st : PState) (l : JLine) (h : st.isError = true) :
    (stepLine st l).isError = true := by
  cases l with
  | malformed => exact h
  | ok e =>
    show (descStep (activityStep (seedStep st e) e) e).isError = true
    apply descStep_isError_true
    rw [activityStep_isError, seedStep_isError]
    exact h

theorem foldLines_isError_mono (ls : List JLine) (st : PState) (h : st.isError = true) :
    (foldLines st ls).isError = true := by
  induction ls generalizing st with
  | nil => exact h
  | cons a rest ih => exact ih (stepLine st a) (stepLine_isError_mono st a h)

theorem stepLine_marker_isError (st : PState) (l : JLine)
    (h : isMarkerSummaryLine l = true) : (stepLine st l).isError = true := by
  cases l with
  | malformed => simp [isMarkerSummaryLine] at h
  | ok e =>
    simp only [isMarkerSummaryLine, Bool.and_eq_true, beq_iff_eq, bne_iff_ne] at h
    show (descStep (activityStep (seedStep st e) e) e).isError = true
    unfold descStep
    rw [if_pos ⟨h.1.1, h.1.2⟩]
    simp [h.2]

theorem foldLines_marker_isError (ls : List JLine) (st : PState)
    (h : ∃ l ∈ ls, isMarkerSummaryLine l = true) :
    (foldLines st ls).isError = true := by
  induction ls generalizing st with
  | nil => simp at h
  | cons a rest ih =>
    rcases h with ⟨l, hmem, hl⟩
    rcases List.mem_cons.mp hmem with rfl | hmem2
    · exact foldLines_isError_mono rest _ (stepLine_marker_isError st l hl)
    · exact ih (stepLine st a) ⟨l, hmem2, hl⟩

theorem stepLine_sessionId_noid (st : PState) (l : JLine)
    (h : lineHasNoId l = true) : (stepLine st l).sessionId = st.sessionId := by
  cases l with
  | malformed => rfl
  | ok e =>
    simp only [lineHasNoId, beq_iff_eq] at h
    show (descStep (activityStep (seedStep st e) e) e).sessionId = st.sessionId
    rw [descStep_sessionId, activityStep_sessionId]
    unfold seedStep
    rw [if_neg]
    simp [h]

theorem foldLines_sessionId_noid (ls : List JLine) (st : PState)
    (h : ∀ l ∈ ls, lineHasNoId l = true) :
    (foldLines st ls).sessionId = st.sessionId := by
  induction ls generalizing st with
  | nil => rfl
  | cons a rest ih =>
    have := ih (stepLine st a) (fun l hl => h l (List.mem_cons_of_mem a hl))
    rw [foldLines] at this ⊢
    simp only [List.foldl_cons] at this ⊢
    rw [this, stepLine_sessionId_noid st a (h a (List.mem_cons_self a rest))]

theorem foldLines_const_of_malformed (ls : List JLine) (st : PState)
    (h : ∀ l ∈ ls, l = JLine.malformed) : foldLines st ls = st := by
  induction ls generalizing st with
  | nil => rfl
  | cons a rest ih =>
    have ha : a = JLine.malformed := h a (List.mem_cons_self a rest)
    rw [foldLines, List.foldl_cons, ha]
    exact ih st (fun l hl => h l (List.mem_cons_of_mem a hl))

/-! ## Claim C1 -/

/-- C1 (code_bug evaluation): for the directory `/tmp/a"b\c` and session id
`abc`, the launch command built by `ResumeSessionAction` is escaped only
once, for the AppleScript layer; unescaping the output once per layer in
reverse order (AppleScript unescape, then reading the shell double-quoted
`cd` argument) recovers `/tmp/a`, not the original directory string: the
shell double-quoted string layer was never escaped, so the round trip the
claim requires fails. -/
theorem claim1_escaping_single_layer :
    shellCdArg (specAppleScriptUnescape (appleScriptEscape
        (buildResumeCommand (strL "/tmp/a\"b\\c") (strL "abc")))) =
      some (strL "/tmp/a") ∧
    strL "/tmp/a" ≠ strL "/tmp/a\"b\\c" := by
  constructor
  · decide
  · decide

/-! ## Claim C2 -/

/-- C2 (counterexample to the claim as stated): the error-screen Retry
action starts a refresh without consulting or setting `isGlobalLoading`;
after the trace `[retry]` one refresh is running, yet a guarded request
arriving at that point passes the (never set) guard and starts a second
concurrent refresh with a second file-system scan — so a second refresh
request issued while one is in flight can perform work, and the scan
counter reaches 2 while the first refresh is still running. -/
theorem claim2_counterexample :
    (refreshRun { inFlight := false, running := 0, scanCount := 0 }
        [.retry]).running = 1 ∧
    (refreshRun { inFlight := false, running := 0, scanCount := 0 }
        [.retry, .request]).running = 2 ∧
    (refreshRun { inFlight := false, running := 0, scanCount := 0 }
        [.retry, .request]).scanCount = 2 :=
  ⟨rfl, rfl, rfl⟩

/-- C2 (amended, proved): refresh suppression holds for the guarded
mount-effect entry point only: a guarded request arriving while
`isGlobalLoading` is set leaves the state completely unchanged — no scan,
no additional running refresh, nothing queued (the state carries no
queue), no error — and two back-to-back guarded requests from the idle
state run exactly one scan.  The Retry action bypasses the guard, so the
at-most-one property does not extend to it. -/
theorem claim2_refresh_inflight_noop (s : RefreshState) (h : s.inFlight = true) :
    refreshStep s .request = s ∧
    (refreshRun { inFlight := false, running := 0, scanCount := 0 }
        [.request, .request]).scanCount = 1 := by
  constructor
  · simp [refreshStep, h]
  · rfl

/-- C2 witness: concrete in-flight state. -/
theorem claim2_refresh_inflight_noop_witness :
    ({ inFlight := true, running := 1, scanCount := 5 } : RefreshState).inFlight = true ∧
    refreshStep { inFlight := true, running := 1, scanCount := 5 } .request =
      { inFlight := true, running := 1, scanCount := 5 } :=
  ⟨rfl, (claim2_refresh_inflight_noop
      { inFlight := true, running := 1, scanCount := 5 } rfl).1⟩

/-! ## Claim C6 -/

/-- C6 (code_bug evaluation): a file whose only line is
`{"sessionId":"abc"}` carries no timestamped line, yet the resulting
Session's `timestamp` (createdAt) and `lastActivity` are both Invalid Date
(`new Date(undefined)`), not the file's modified time 777: the final
`timestamp.getTime() === 0` guard never fires for Invalid Date (NaN) or
for the initial `new Date()`, contradicting the claim (and the source's
own comment "Set timestamp from file stats if not available from
content"). -/
theorem claim6_timestamp_eval :
    parseSessionFile "f.jsonl" [.ok { sessionId := "abc" }] 1000 (some 777) =
      some { id := "abc", description := "Claude Code Session", directory := "~",
             timestamp := .nan, lastActivity := .nan, filePath := "f.jsonl" } ∧
    DateVal.nan ≠ DateVal.t 777 := by
  constructor
  · rfl
  · decide

/-! ## Claim C3 -/

/-- C3 (counterexample): with the source's `TIMEOUT_MS` budget and a scan
that took 10001 ms, the budget check that runs after the scan throws
`"Session loading timeout"`, which the catch converts into the timeout
error message with an empty session list — the refresh does surface a
timeout error instead of returning the sessions collected so far as a
normal partial result, and no check happened before the scan started. -/
theorem claim3_counterexample :
    loadSessionsModel [{ filePath := "a.jsonl", modifiedTime := 1, size := 1 }]
        10001 (fun _ => 1) (fun _ => none) TIMEOUT_MS =
      { sessions := [], errMsg := some timeoutMsg } ∧
    TIMEOUT_MS < 10001 := by
  constructor
  · rfl
  · decide

theorem parseLoopCatalog_length (budget : Nat) (pc : SFileInfo → Nat)
    (pr : SFileInfo → Option Session) :
    ∀ (l : List SFileInfo) (e k : Nat), budget < e + sumCosts pc (l.take k) →
      (parseLoopCatalog budget pc pr e l).length ≤ k := by
  intro l
  induction l with
  | nil => intro e k _; simp [parseLoopCatalog]
  | cons f rest ih =>
    intro e k hk
    unfold parseLoopCatalog
    by_cases hb : budget < e
    · simp [hb]
    · rw [if_neg hb]
      cases k with
      | zero =>
        simp [sumCosts] at hk
        omega
      | succ k =>
        rw [List.take_succ_cons] at hk
        simp only [sumCosts, List.map_cons, List.sum_cons] at hk
        have hrec := ih (e + pc f) k (by simp only [sumCosts]; omega)
        cases hpr : pr f with
        | some s => simpa [hpr] using Nat.succ_le_succ hrec
        | none => simp only [hpr]; omega

/-- C3 (amended, proved): the wall-clock budget is checked once after the
scan and again before parsing each candidate file.  Whenever the scan
itself finished within budget, the refresh reports no (timeout) error, and
if the budget is exhausted by the scan plus the first `k` parses of the 15
most-recent candidates, at most `k` Sessions are returned — partial
results are a normal outcome of the parse loop. -/
theorem claim3_budget_soft_after_scan (files : List SFileInfo) (scanCost : Nat)
    (pc : SFileInfo → Nat) (pr : SFileInfo → Option Session) (budget : Nat)
    (h : scanCost ≤ budget) :
    (loadSessionsModel files scanCost pc pr budget).errMsg = none ∧
    ∀ k : Nat,
      budget < scanCost +
        sumCosts pc (((sortDescBy (fun f => f.modifiedTime) files).take 15).take k) →
      (loadSessionsModel files scanCost pc pr budget).sessions.length ≤ k := by
  have hb : ¬ budget < scanCost := Nat.not_lt.mpr h
  constructor
  · simp [loadSessionsModel, hb]
  · intro k hk
    simp only [loadSessionsModel, hb, if_false]
    exact parseLoopCatalog_length budget pc pr _ scanCost k hk

/-- C3 witness: 4 candidate files, scan cost 1, parse cost 4 each, budget
10 — the scan fits the budget, so no error is reported, and since the
budget runs out after 3 parses at most 3 Sessions are returned. -/
theorem claim3_budget_soft_after_scan_witness :
    1 ≤ 10 ∧
    ((loadSessionsModel
        [{ filePath := "a", modifiedTime := 4, size := 0 },
         { filePath := "b", modifiedTime := 3, size := 0 },
         { filePath := "c", modifiedTime := 2, size := 0 },
         { filePath := "d", modifiedTime := 1, size := 0 }]
        1 (fun _ => 4)
        (fun f => some { id := "i", description := "d", directory := "~",
                         timestamp := .t 1, lastActivity := .t 1,
                         filePath := f.filePath }) 10).errMsg = none ∧
     (loadSessionsModel
        [{ filePath := "a", modifiedTime := 4, size := 0 },
         { filePath := "b", modifiedTime := 3, size := 0 },
         { filePath := "c", modifiedTime := 2, size := 0 },
         { filePath := "d", modifiedTime := 1, size := 0 }]
        1 (fun _ => 4)
        (fun f => some { id := "i", description := "d", directory := "~",
                         timestamp := .t 1, lastActivity := .t 1,
                         filePath := f.filePath }) 10).sessions.length ≤ 3) := by
  refine ⟨by decide, ?_, ?_⟩
  · exact (claim3_budget_soft_after_scan _ 1 _ _ 10 (by decide)).1
  · exact (claim3_budget_soft_after_scan _ 1 _ _ 10 (by decide)).2 3 (by decide)

/-! ## Claims C4 and C5 -/

theorem extractIdFromFilename_ne_empty (fp i : String)
    (h : extractIdFromFilename fp = some i) : i ≠ "" := by
  simp only [extractIdFromFilename] at h
  split_ifs at h with h1 h2
  rcases h2 with ⟨h36, _⟩
  intro hcon
  rw [hcon] at h
  have hdata : ((basenameL (strL fp)).take ((basenameL (strL fp)).length - 6)).drop
      ((((basenameL (strL fp)).take ((basenameL (strL fp)).length - 6))).length - 36) =
      ([] : List Char) := (congrArg String.data (Option.some.inj h)).trans rfl
  have hlen := congrArg List.length hdata
  rw [List.length_drop] at hlen
  simp only [List.length_nil] at hlen
  omega

theorem take500_isEmpty_false (lines : List JLine) (hne : lines ≠ []) :
    (lines.take 500).isEmpty = false := by
  cases lines with
  | nil => exact absurd rfl hne
  | cons a l => rfl

/-- C4 (amended, proved): for a file none of whose (non-blank) lines parse
as valid JSON, the parser raises nothing and yields no Session — unless
the filename ends in a 36-character `[a-f0-9-]` identifier before
`.jsonl` and the file has at least one non-blank line, in which case a
Session with that filename-derived id and all-default fields is returned. -/
theorem claim4_no_valid_lines (fp : String) (lines : List JLine) (now : Nat)
    (mtime : Option Nat) (hm : ∀ l ∈ lines, l = JLine.malformed) (hnow : 0 < now) :
    (lines = [] → parseSessionFile fp lines now mtime = none) ∧
    (extractIdFromFilename fp = none → parseSessionFile fp lines now mtime = none) ∧
    (∀ idv, extractIdFromFilename fp = some idv → lines ≠ [] →
      parseSessionFile fp lines now mtime =
        some { id := idv, description := "Claude Code Session", directory := "~",
               timestamp := .t now, lastActivity := .t now, filePath := fp }) := by
  have hm' : ∀ l ∈ lines.take 500, l = JLine.malformed :=
    fun l hl => hm l (List.take_subset _ _ hl)
  have hfold : foldLines (initPState now) (lines.take 500) = initPState now :=
    foldLines_const_of_malformed _ _ hm'
  refine ⟨?_, ?_, ?_⟩
  · rintro rfl
    rfl
  · intro hnone
    by_cases he : (lines.take 500).isEmpty
    · simp [parseSessionFile, he]
    · simp only [parseSessionFile]
      rw [hfold]
      simp [he, hnone, initPState]
  · intro idv hsome hne
    have hne' : idv ≠ "" := extractIdFromFilename_ne_empty fp idv hsome
    have hemp := take500_isEmpty_false lines hne
    have hnz : ¬ now = 0 := Nat.pos_iff_ne_zero.mp hnow
    simp only [parseSessionFile]
    rw [hfold]
    simp [hemp, hsome, initPState, hne', dateEqZero, dateGtZero, hnz]

/-- C4 (counterexample to the claim as stated): a file whose single
non-blank line is not valid JSON, but whose name carries a 36-character
identifier, yields a Session rather than none. -/
theorem claim4_counterexample :
    (∀ l ∈ [JLine.malformed], l = JLine.malformed) ∧
    parseSessionFile "eeeeeeee-eeee-eeee-eeee-eeeeeeeeeeee.jsonl"
        [JLine.malformed] 9 (some 2) =
      some { id := "eeeeeeee-eeee-eeee-eeee-eeeeeeeeeeee",
             description := "Claude Code Session", directory := "~",
             timestamp := .t 9, lastActivity := .t 9,
             filePath := "eeeeeeee-eeee-eeee-eeee-eeeeeeeeeeee.jsonl" } := by
  exact ⟨by decide, rfl⟩

/-- C4 witness. -/
theorem claim4_no_valid_lines_witness :
    parseSessionFile "x/ffffffff-ffff-ffff-ffff-ffffffffffff.jsonl"
        [JLine.malformed] 7 none =
      some { id := "ffffffff-ffff-ffff-ffff-ffffffffffff",
             description := "Claude Code Session", directory := "~",
             timestamp := .t 7, lastActivity := .t 7,
             filePath := "x/ffffffff-ffff-ffff-ffff-ffffffffffff.jsonl" } :=
  (claim4_no_valid_lines "x/ffffffff-ffff-ffff-ffff-ffffffffffff.jsonl"
      [JLine.malformed] 7 none (by decide) (by decide)).2.2
    "ffffffff-ffff-ffff-ffff-ffffffffffff" rfl (by decide)

/-- C5 (amended, proved): for a file with at least one non-blank line in
which no parsed line yields a non-empty session id, the Session's id
equals the filename-embedded 36-character identifier when one exists, and
when filename extraction also fails the file yields no Session — with no
error either way. -/
theorem claim5_filename_fallback (fp : String) (lines : List JLine) (now : Nat)
    (mtime : Option Nat) (hne : lines ≠ [])
    (hnoid : ∀ l ∈ lines.take 500, lineHasNoId l = true) :
    (extractIdFromFilename fp = none → parseSessionFile fp lines now mtime = none) ∧
    (∀ idv, extractIdFromFilename fp = some idv →
      ∃ s, parseSessionFile fp lines now mtime = some s ∧ s.id = idv) := by
  have hemp := take500_isEmpty_false lines hne
  have hsid : (foldLines (initPState now) (lines.take 500)).sessionId = "" := by
    rw [foldLines_sessionId_noid _ _ hnoid]
    rfl
  constructor
  · intro hnone
    simp only [parseSessionFile]
    rw [hsid]
    simp [hemp, hnone]
  · intro idv hsome
    have hne' : idv ≠ "" := extractIdFromFilename_ne_empty fp idv hsome
    simp only [parseSessionFile]
    rw [hsid, hsome]
    simp [hemp, hne']

/-- C5 (counterexample to the claim as stated): a file with no lines at all
trivially has no line yielding a session id and its name carries the
36-character identifier, yet the parser returns no Session (the empty-file
early return fires before filename fallback). -/
theorem claim5_counterexample :
    parseSessionFile "cccccccc-cccc-cccc-cccc-cccccccccccc.jsonl" [] 5 none = none ∧
    extractIdFromFilename "cccccccc-cccc-cccc-cccc-cccccccccccc.jsonl" =
      some "cccccccc-cccc-cccc-cccc-cccccccccccc" := ⟨rfl, rfl⟩

/-- C5 witness. -/
theorem claim5_filename_fallback_witness :
    ∃ s, parseSessionFile "x/bbbbbbbb-bbbb-bbbb-bbbb-bbbbbbbbbbbb.jsonl"
          [JLine.ok { content := .str "hi" }] 5 none = some s ∧
        s.id = "bbbbbbbb-bbbb-bbbb-bbbb-bbbbbbbbbbbb" :=
  (claim5_filename_fallback "x/bbbbbbbb-bbbb-bbbb-bbbb-bbbbbbbbbbbb.jsonl"
      [JLine.ok { content := .str "hi" }] 5 none (by decide) (by decide)).2
    "bbbbbbbb-bbbb-bbbb-bbbb-bbbbbbbbbbbb" rfl

/-! ## Claim C7 -/

theorem isPrefixOf_self_append (p t : List Char) : p.isPrefixOf (p ++ t) = true := by
  induction p with
  | nil => simp [List.isPrefixOf]
  | cons a p ih => simp [List.isPrefixOf, ih]

theorem errPrefixed_append (x : String) : errPrefixed ("❌ " ++ x) = true := by
  obtain ⟨xl⟩ := x
  show (strL "❌ ").isPrefixOf (strL ("❌ " ++ String.mk xl)) = true
  have hd : strL ("❌ " ++ String.mk xl) = strL "❌ " ++ xl := by
    simp [strL, String.data_append]
  rw [hd]
  exact isPrefixOf_self_append _ _

/-- C7 (amended, proved): whenever some processed line is a `summary` entry
whose text contains an authentication-failure marker (this — not the final
description — is what the source tests), any Session produced from the file
has its description prefixed with the visible failure marker `❌ `, and its
directory defaults to the home sentinel `~` when the parse left it empty. -/
theorem claim7_summary_marker_flag (fp : String) (lines : List JLine) (now : Nat)
    (mtime : Option Nat) (s : Session)
    (hmark : ∃ l ∈ lines.take 500, isMarkerSummaryLine l = true)
    (hs : parseSessionFile fp lines now mtime = some s) :
    errPrefixed s.description = true ∧
    ((foldLines (initPState now) (lines.take 500)).directory = "" →
      s.directory = "~") := by
  have herr : (foldLines (initPState now) (lines.take 500)).isError = true :=
    foldLines_marker_isError _ _ hmark
  simp only [parseSessionFile] at hs
  by_cases h1 : (lines.take 500).isEmpty = true
  · rw [if_pos h1] at hs
    simp at hs
  · rw [if_neg h1] at hs
    by_cases h2 :
        (if (foldLines (initPState now) (lines.take 500)).sessionId = "" then
          (extractIdFromFilename fp).getD ""
         else (foldLines (initPState now) (lines.take 500)).sessionId) = ""
    · rw [if_pos h2] at hs
      simp at hs
    · rw [if_neg h2] at hs
      have hrec := Option.some.inj hs
      subst hrec
      constructor
      · simp [herr, errPrefixed_append]
      · intro hdir
        simp [herr, hdir]

/-- C7 (counterexample to the claim as stated): a file whose description is
recovered from a `message.content` line containing the marker text
"Invalid API key" — the final description contains an
authentication-failure marker, yet the Session is not flagged: no `❌ `
prefix is added (the source only inspects `summary` lines for markers). -/
theorem claim7_counterexample :
    parseSessionFile "dddddddd-dddd-dddd-dddd-dddddddddddd.jsonl"
        [JLine.ok { content := .str "Invalid API key" }] 5 none =
      some { id := "dddddddd-dddd-dddd-dddd-dddddddddddd",
             description := "Invalid API key", directory := "~",
             timestamp := .t 5, lastActivity := .t 5,
             filePath := "dddddddd-dddd-dddd-dddd-dddddddddddd.jsonl" } ∧
    hasAuthMarker "Invalid API key" = true ∧
    errPrefixed "Invalid API key" = false := by
  refine ⟨rfl, by decide, by decide⟩

/-- C7 witness. -/
theorem claim7_summary_marker_flag_witness :
    errPrefixed ({ id := "sid1", description := "❌ Invalid API key",
                   directory := "~", timestamp := DateVal.nan,
                   lastActivity := DateVal.nan,
                   filePath := "w.jsonl" } : Session).description = true ∧
    ((foldLines (initPState 3)
        ([JLine.ok { sessionId := "sid1", type := "summary",
                     summary := "Invalid API key" }].take 500)).directory = "" →
      ({ id := "sid1", description := "❌ Invalid API key", directory := "~",
         timestamp := DateVal.nan, lastActivity := DateVal.nan,
         filePath := "w.jsonl" } : Session).directory = "~") :=
  claim7_summary_marker_flag "w.jsonl"
    [JLine.ok { sessionId := "sid1", type := "summary",
                summary := "Invalid API key" }] 3 none _ (by decide) rfl

/-! ## Claim C8 -/

/-- C8 (confirmed): for a file containing two lines with timestamps
`T1 < T2`, in either relative order, the resulting Session's
`lastActivity` equals `max(T1, T2) = T2` — the running maximum over
timestamped lines is independent of input order. -/
theorem claim8_lastActivity_running_max (T1 T2 : Nat) (h : T1 < T2) (now : Nat)
    (mtime : Option Nat) (fp : String) :
    ((parseSessionFile fp
        [JLine.ok { sessionId := "s", timestamp := .valid T1 },
         JLine.ok { sessionId := "s", timestamp := .valid T2 }] now mtime).map
        (fun s => s.lastActivity) = some (DateVal.t T2)) ∧
    ((parseSessionFile fp
        [JLine.ok { sessionId := "s", timestamp := .valid T2 },
         JLine.ok { sessionId := "s", timestamp := .valid T1 }] now mtime).map
        (fun s => s.lastActivity) = some (DateVal.t T2)) := by
  have h02 : (0 : Nat) < T2 := Nat.lt_of_le_of_lt (Nat.zero_le T1) h
  have h12 : ¬ T2 < T1 := Nat.not_lt.mpr (Nat.le_of_lt h)
  constructor <;>
  · by_cases h01 : 0 < T1 <;>
      simp [parseSessionFile, foldLines, stepLine, stepEntry, seedStep,
            activityStep, descStep, initPState, dateOf, tsTruthy, dateGt,
            dateGtZero, dateEqZero, contentTruthy, h01, h02, h, h12]

/-- C8 witness. -/
theorem claim8_lastActivity_running_max_witness :
    1 < 2 ∧
    (((parseSessionFile "s.jsonl"
        [JLine.ok { sessionId := "s", timestamp := .valid 1 },
         JLine.ok { sessionId := "s", timestamp := .valid 2 }] 9 none).map
        (fun s => s.lastActivity) = some (DateVal.t 2)) ∧
     ((parseSessionFile "s.jsonl"
        [JLine.ok { sessionId := "s", timestamp := .valid 2 },
         JLine.ok { sessionId := "s", timestamp := .valid 1 }] 9 none).map
        (fun s => s.lastActivity) = some (DateVal.t 2))) :=
  ⟨by decide, claim8_lastActivity_running_max 1 2 (by decide) 9 none "s.jsonl"⟩

/-! ## Claim C9 -/

theorem extractProjectPath_nontrivial (ls : List PLine) (c : String)
    (h : extractProjectPath ls = some c) : c ≠ "" ∧ c ≠ "/" := by
  induction ls with
  | nil => simp [extractProjectPath] at h
  | cons a rest ih =>
    cases a with
    | malformed => exact ih h
    | entry cwd =>
      simp only [extractProjectPath] at h
      split_ifs at h with hc
      · obtain rfl := Option.some.inj h
        exact hc
      · exact ih h

theorem parseProjectLoop_none_iff (ef : String → Bool) (enc : String)
    (fs : List JFile) :
    parseProjectLoop ef enc fs = none ↔
      ∀ f ∈ fs, extractProjectPath f.lines = none := by
  induction fs with
  | nil => simp [parseProjectLoop]
  | cons f rest ih =>
    simp only [parseProjectLoop]
    cases hf : extractProjectPath f.lines with
    | some c => simp [hf, List.forall_mem_cons]
    | none => simp [hf, List.forall_mem_cons, ih]

theorem parseProjectLoop_some (ef : String → Bool) (enc : String)
    (fs : List JFile) (p : ProjectInfo) (h : parseProjectLoop ef enc fs = some p) :
    ∃ pre f post, fs = pre ++ f :: post ∧
      (∀ g ∈ pre, extractProjectPath g.lines = none) ∧
      extractProjectPath f.lines = some p.path ∧ p.lastActivity = f.mtime ∧
      p.existsOnDisk = ef p.path ∧ p.encodedDirName = enc := by
  induction fs with
  | nil => simp [parseProjectLoop] at h
  | cons f rest ih =>
    simp only [parseProjectLoop] at h
    cases hf : extractProjectPath f.lines with
    | some c =>
      rw [hf] at h
      have hrec := Option.some.inj h
      subst hrec
      exact ⟨[], f, rest, rfl, by simp, hf, rfl, rfl, rfl⟩
    | none =>
      rw [hf] at h
      obtain ⟨pre, g, post, heq, hpre, h1, h2, h3, h4⟩ := ih h
      refine ⟨f :: pre, g, post, by rw [heq]; rfl, ?_, h1, h2, h3, h4⟩
      intro x hx
      rcases List.mem_cons.mp hx with rfl | hx2
      · exact hf
      · exact hpre x hx2

/-- C9 (confirmed): the resolver inspects a project group's `.jsonl` files
in descending modified-time order; it produces no Project (and no error)
exactly when no file of the group yields a usable working-directory path,
and when it produces one, the Project's path comes from the first file in
that order yielding a path, that path is neither empty nor the filesystem
root `/`, and `lastActivity` is that file's modified time. -/
theorem claim9_project_first_usable (ef : String → Bool) (enc : String)
    (files : List JFile) :
    (parseProject ef enc files = none ↔
      ∀ f ∈ files, endsWithJsonl f.name = true → extractProjectPath f.lines = none) ∧
    (∀ p, parseProject ef enc files = some p →
      p.path ≠ "" ∧ p.path ≠ "/" ∧
      ∃ pre f post,
        sortDescBy (fun f => f.mtime)
            (files.filter (fun f => endsWithJsonl f.name)) = pre ++ f :: post ∧
        (∀ g ∈ pre, extractProjectPath g.lines = none) ∧
        extractProjectPath f.lines = some p.path ∧ p.lastActivity = f.mtime) ∧
    List.Sorted (fun a b => b.mtime ≤ a.mtime)
      (sortDescBy (fun f => f.mtime)
        (files.filter (fun f => endsWithJsonl f.name))) := by
  haveI hTot : IsTotal JFile (fun a b => b.mtime ≤ a.mtime) :=
    ⟨fun a b => Nat.le_total b.mtime a.mtime⟩
  haveI hTrans : IsTrans JFile (fun a b => b.mtime ≤ a.mtime) :=
    ⟨fun a b c h1 h2 => Nat.le_trans h2 h1⟩
  refine ⟨?_, ?_, ?_⟩
  · unfold parseProject
    by_cases hemp : (files.filter (fun f => endsWithJsonl f.name)).isEmpty
    · simp only [hemp, if_true, true_iff]
      intro f hf hends
      exfalso
      have hmem : f ∈ files.filter (fun f => endsWithJsonl f.name) :=
        List.mem_filter.mpr ⟨hf, hends⟩
      rw [List.isEmpty_iff.mp hemp] at hmem
      simp at hmem
    · rw [if_neg hemp, parseProjectLoop_none_iff]
      constructor
      · intro hall f hf hends
        exact hall f (((List.perm_insertionSort _ _).mem_iff).mpr
          (List.mem_filter.mpr ⟨hf, hends⟩))
      · intro hall f hmem
        have hfl := List.mem_filter.mp (((List.perm_insertionSort _ _).mem_iff).mp hmem)
        exact hall f hfl.1 hfl.2
  · intro p hp
    unfold parseProject at hp
    by_cases hemp : (files.filter (fun f => endsWithJsonl f.name)).isEmpty
    · rw [if_pos hemp] at hp
      simp at hp
    · rw [if_neg hemp] at hp
      obtain ⟨pre, f, post, heq, hpre, hpath, hlast, _, _⟩ :=
        parseProjectLoop_some ef enc _ p hp
      obtain ⟨hne, hslash⟩ := extractProjectPath_nontrivial f.lines p.path hpath
      exact ⟨hne, hslash, pre, f, post, heq, hpre, hpath, hlast⟩
  · exact List.sorted_insertionSort _ _

/-- C9 witness: a concrete two-file group where only the more recent file
yields a path. -/
theorem claim9_project_first_usable_witness :
    ({ name := "x", path := "/x", lastActivity := 5, existsOnDisk := true,
       encodedDirName := "enc" } : ProjectInfo).path ≠ "" ∧
    ({ name := "x", path := "/x", lastActivity := 5, existsOnDisk := true,
       encodedDirName := "enc" } : ProjectInfo).path ≠ "/" ∧
    ∃ pre f post,
      sortDescBy (fun f => f.mtime)
          (([{ name := "a.jsonl", mtime := 1, lines := [PLine.entry ""] },
             { name := "b.jsonl", mtime := 5,
               lines := [PLine.malformed, PLine.entry "/x"] }] : List JFile).filter
            (fun f => endsWithJsonl f.name)) = pre ++ f :: post ∧
      (∀ g ∈ pre, extractProjectPath g.lines = none) ∧
      extractProjectPath f.lines =
        some ({ name := "x", path := "/x", lastActivity := 5, existsOnDisk := true,
                encodedDirName := "enc" } : ProjectInfo).path ∧
      ({ name := "x", path := "/x", lastActivity := 5, existsOnDisk := true,
         encodedDirName := "enc" } : ProjectInfo).lastActivity = f.mtime :=
  (claim9_project_first_usable (fun _ => true) "enc"
      [{ name := "a.jsonl", mtime := 1, lines := [PLine.entry ""] },
       { name := "b.jsonl", mtime := 5,
         lines := [PLine.malformed, PLine.entry "/x"] }]).2.1
    { name := "x", path := "/x", lastActivity := 5, existsOnDisk := true,
      encodedDirName := "enc" } rfl

/-! ## Claim C10 -/

theorem scanFile_foldl (fs : FSModel) (d : String) :
    ∀ (files : List String) (acc : List SFileInfo),
      files.foldl (scanFileStep fs d) acc =
        acc ++ files.filterMap (specFileEntry fs d) := by
  intro files
  induction files with
  | nil => intro acc; simp
  | cons f rest ih =>
    intro acc
    rw [List.foldl_cons, ih]
    cases hstat : fs.statFile (joinPath d f) with
    | error e => simp [scanFileStep, specFileEntry, hstat, List.filterMap_cons]
    | ok st =>
      by_cases hsz : maxFileSize < st.size <;>
        simp [scanFileStep, specFileEntry, hstat, hsz, List.filterMap_cons,
              List.append_assoc]

theorem scanDir_foldl (fs : FSModel) (root : String) :
    ∀ (dirs : List DirEnt) (acc : List SFileInfo),
      dirs.foldl (scanDirStep fs root) acc =
        acc ++ ((dirs.map (specDirFiles fs root)).flatten) := by
  intro dirs
  induction dirs with
  | nil => intro acc; simp
  | cons d rest ih =>
    intro acc
    rw [List.foldl_cons, ih, List.map_cons, List.flatten_cons]
    have hstep : scanDirStep fs root acc d = acc ++ specDirFiles fs root d := by
      unfold scanDirStep specDirFiles
      by_cases hd : d.isDir
      · rw [if_pos hd, if_pos hd]
        cases hrd : fs.readdirNames (joinPath root d.name) with
        | error e => simp
        | ok fls => exact scanFile_foldl fs (joinPath root d.name) _ acc
      · rw [if_neg hd, if_neg hd]
        simp
    rw [hstep, List.append_assoc]

/-- C10 (confirmed): the scanner is total — it equals the closed-form
per-portion collection `specScan`, in which a directory that cannot be
listed or a file that cannot be stat-ed contributes nothing while the rest
of the scan proceeds, and a root that cannot be listed yields the empty
list; no failure escapes to the caller. -/
theorem claim10_scanner_total :
    (∀ (fs : FSModel) (root : String), getAllSessionFiles fs root = specScan fs root) ∧
    (∀ (fs : FSModel) (root : String) (e : String),
      fs.readdirTypes root = .error e → getAllSessionFiles fs root = []) := by
  constructor
  · intro fs root
    unfold getAllSessionFiles specScan
    cases hrt : fs.readdirTypes root with
    | error e => rfl
    | ok dirs =>
      show List.foldl (scanDirStep fs root) [] dirs =
        (List.map (specDirFiles fs root) dirs).flatten
      rw [scanDir_foldl]
      simp
  · intro fs root e he
    unfold getAllSessionFiles
    rw [he]

/-- C10 witness: a filesystem whose root listing rejects. -/
theorem claim10_scanner_total_witness :
    getAllSessionFiles
      { readdirTypes := fun _ => Except.error "eacces",
        readdirNames := fun _ => Except.error "eacces",
        statFile := fun _ => Except.error "eacces" } "root" = [] :=
  claim10_scanner_total.2 _ "root" "eacces" rfl
